import Mathlib

/-!  Verification of the elasticube repository's schema registry, cube store,
builder and Python query-builder wrapper, shallowly embedded from the Rust
sources (src/elasticube-core and src/elasticube-py).  Components of the
repository that are declared in lib.rs but whose source files are not part of
the snapshot (the cube/dimension, cube/measure, cube/hierarchy, error and
query modules, and the mutation engine) are modelled from the specification
and marked as such in their doc comments. -/

namespace Elasticube

/-- Arrow data types, abstracted to the variants the repository uses
(arrow::datatypes::DataType is an external dependency; only equality of
types matters to the embedded code). -/
inductive DataType where
  | int32
  | int64
  | float64
  | utf8
  | boolean
  | date32
deriving DecidableEq

/-- Modelled from the spec: aggregation functions of a measure (§3); the
cube/measure module is not under src/. -/
inductive AggFunc where
  | sum
  | avg
  | min
  | max
  | count
  | countDistinct
  | median
  | stddev
  | variance
  | first
  | last
deriving DecidableEq

/-- Modelled from the spec: a dimension is a name with a declared type (§3);
the cube/dimension module is not under src/. -/
structure Dimension where
  name : String
  dataType : DataType
deriving DecidableEq

/-- Modelled from the spec: a measure is a name, a declared type and an
aggregation function (§3); the cube/measure module is not under src/. -/
structure Measure where
  name : String
  dataType : DataType
  aggFunc : AggFunc
deriving DecidableEq

/-- Modelled from the spec: a hierarchy is a name with an ordered list of
levels (§3); the cube/hierarchy module is not under src/. -/
structure Hierarchy where
  name : String
  levels : List String
deriving DecidableEq

/-- Modelled from the spec: Hierarchy::contains_level, used by
CubeSchema::remove_dimension, tests membership of a name in the level list. -/
def Hierarchy.containsLevel (h : Hierarchy) (n : String) : Bool :=
  h.levels.contains n

/-- Modelled from the spec: Measure::validate (cube/measure is not under
src/).  The spec states no measure-local validation condition beyond the
aggregation function belonging to the closed enumeration, which the type
enforces, so validation always succeeds. -/
def Measure.validate (_ : Measure) : Except String Unit :=
  .ok ()

/-- Modelled from the spec: Hierarchy::validate (cube/hierarchy is not under
src/).  The spec states no hierarchy-local validation condition (level
existence is checked by the schema registry itself), so validation always
succeeds. -/
def Hierarchy.validate (_ : Hierarchy) : Except String Unit :=
  .ok ()

/-- Errors of the embedded code.  The Rust Error type (crate::error is not
under src/) carries formatted message strings; each distinct message format
at a distinct error site is abstracted as one constructor carrying the
values interpolated into the message. -/
inductive Error where
  | dimensionExists (name : String)
  | measureExists (name : String)
  | hierarchyExists (name : String)
  | measureInvalid (msg : String)
  | hierarchyInvalid (msg : String)
  | unknownLevel (hierarchy : String) (level : String)
  | referencedBy (dimension : String) (hierarchy : String)
  | dimensionNotFound (name : String)
  | measureNotFound (name : String)
  | hierarchyNotFound (name : String)
  | schemaFieldNotFound (field : String)
  | schemaTypeMismatch (field : String) (expected : DataType) (found : DataType)
  | dataError (msg : String)
  | schemaError (msg : String)
  | builderNoSource
  | builderConsumed
  | ioError (msg : String)
deriving DecidableEq

/-- Insertion-ordered associative map, embedding indexmap::IndexMap as used
by CubeSchema: entries kept in insertion order. -/
structure IndexMap (α : Type) where
  entries : List (String × α)
deriving DecidableEq

/-- Empty IndexMap. -/
def IndexMap.empty {α : Type} : IndexMap α :=
  ⟨[]⟩

/-- IndexMap::contains_key. -/
def IndexMap.containsKey {α : Type} (m : IndexMap α) (k : String) : Bool :=
  m.entries.any (fun e => e.1 == k)

/-- IndexMap::get, first entry with the key. -/
def IndexMap.get {α : Type} (m : IndexMap α) (k : String) : Option α :=
  (m.entries.find? (fun e => e.1 == k)).map (fun e => e.2)

/-- IndexMap::insert: an existing key keeps its position and has its value
replaced; a fresh key is appended at the end. -/
def IndexMap.insert {α : Type} (m : IndexMap α) (k : String) (v : α) : IndexMap α :=
  if m.containsKey k then
    ⟨m.entries.map (fun e => if e.1 == k then (e.1, v) else e)⟩
  else
    ⟨m.entries ++ [(k, v)]⟩

/-- Helper for shift_remove: drop the first entry with the key, keeping the
relative order of all other entries. -/
def removeFirstKey {α : Type} : List (String × α) → String → List (String × α)
  | [], _ => []
  | e :: es, k => if e.1 == k then es else e :: removeFirstKey es k

/-- IndexMap::shift_remove: returns the removed value (if any) and the map
with that entry dropped and everything after it shifted left. -/
def IndexMap.shiftRemove {α : Type} (m : IndexMap α) (k : String) :
    Option α × IndexMap α :=
  (m.get k, ⟨removeFirstKey m.entries k⟩)

/-- IndexMap values, in insertion order. -/
def IndexMap.values {α : Type} (m : IndexMap α) : List α :=
  m.entries.map (fun e => e.2)

/-- IndexMap keys, in insertion order. -/
def IndexMap.keys {α : Type} (m : IndexMap α) : List String :=
  m.entries.map (fun e => e.1)

/-- Number of entries. -/
def IndexMap.len {α : Type} (m : IndexMap α) : Nat :=
  m.entries.length

/-- CubeSchema (schema.rs lines 12-28): name, dimensions, measures and
hierarchies in insertion-ordered maps, optional description. -/
structure CubeSchema where
  name : String
  dimensions : IndexMap Dimension
  measures : IndexMap Measure
  hierarchies : IndexMap Hierarchy
  description : Option String
deriving DecidableEq

/-- CubeSchema::new. -/
def CubeSchema.new (name : String) : CubeSchema :=
  ⟨name, .empty, .empty, .empty, none⟩

/-- CubeSchema::add_dimension (schema.rs lines 58-68).  Rust mutates self
through a Result; the embedding returns the call's result paired with the
post-call schema. -/
def CubeSchema.addDimension (s : CubeSchema) (d : Dimension) :
    Except Error Unit × CubeSchema :=
  if s.dimensions.containsKey d.name then
    (.error (.dimensionExists d.name), s)
  else
    (.ok (), { s with dimensions := s.dimensions.insert d.name d })

/-- CubeSchema::add_measure (schema.rs lines 71-81): validate the measure,
then reject a duplicate measure name, else insert. -/
def CubeSchema.addMeasure (s : CubeSchema) (m : Measure) :
    Except Error Unit × CubeSchema :=
  match m.validate with
  | .error e => (.error (.measureInvalid e), s)
  | .ok _ =>
    if s.measures.containsKey m.name then
      (.error (.measureExists m.name), s)
    else
      (.ok (), { s with measures := s.measures.insert m.name m })

/-- CubeSchema::add_hierarchy (schema.rs lines 84-108): validate, reject at
the first level that is not an existing dimension, reject a duplicate
hierarchy name, else insert. -/
def CubeSchema.addHierarchy (s : CubeSchema) (h : Hierarchy) :
    Except Error Unit × CubeSchema :=
  match h.validate with
  | .error e => (.error (.hierarchyInvalid e), s)
  | .ok _ =>
    match h.levels.find? (fun l => ! s.dimensions.containsKey l) with
    | some l => (.error (.unknownLevel h.name l), s)
    | none =>
      if s.hierarchies.containsKey h.name then
        (.error (.hierarchyExists h.name), s)
      else
        (.ok (), { s with hierarchies := s.hierarchies.insert h.name h })

/-- CubeSchema::remove_dimension (schema.rs lines 151-166): reject if any
hierarchy still lists the name as a level, else shift-remove it, failing if
absent. -/
def CubeSchema.removeDimension (s : CubeSchema) (n : String) :
    Except Error Dimension × CubeSchema :=
  match s.hierarchies.values.find? (fun h => h.containsLevel n) with
  | some h => (.error (.referencedBy n h.name), s)
  | none =>
    match s.dimensions.shiftRemove n with
    | (some d, m) => (.ok d, { s with dimensions := m })
    | (none, _) => (.error (.dimensionNotFound n), s)

/-- CubeSchema::remove_measure (schema.rs lines 169-173). -/
def CubeSchema.removeMeasure (s : CubeSchema) (n : String) :
    Except Error Measure × CubeSchema :=
  match s.measures.shiftRemove n with
  | (some m, ms) => (.ok m, { s with measures := ms })
  | (none, _) => (.error (.measureNotFound n), s)

/-- CubeSchema::remove_hierarchy (schema.rs lines 176-180). -/
def CubeSchema.removeHierarchy (s : CubeSchema) (n : String) :
    Except Error Hierarchy × CubeSchema :=
  match s.hierarchies.shiftRemove n with
  | (some h, hs) => (.ok h, { s with hierarchies := hs })
  | (none, _) => (.error (.hierarchyNotFound n), s)

/-- CubeSchema::dimension_count. -/
def CubeSchema.dimensionCount (s : CubeSchema) : Nat :=
  s.dimensions.len

/-- CubeSchema::measure_count. -/
def CubeSchema.measureCount (s : CubeSchema) : Nat :=
  s.measures.len

/-- Arrow field: name, data type, nullability (arrow::datatypes::Field,
external dependency, restricted to what the embedded code reads). -/
structure ArrowField where
  name : String
  dataType : DataType
  nullable : Bool
deriving DecidableEq

/-- Arrow schema: its ordered field list. -/
abbrev ArrowSchema := List ArrowField

/-- CubeSchema::to_arrow_schema (schema.rs lines 231-255): one nullable
field per dimension in insertion order, then one per measure in insertion
order. -/
def CubeSchema.toArrowSchema (s : CubeSchema) : ArrowSchema :=
  s.dimensions.values.map (fun d => ⟨d.name, d.dataType, true⟩)
    ++ s.measures.values.map (fun m => ⟨m.name, m.dataType, true⟩)

/-- Structured serialized form of a CubeSchema, as produced by the derived
Serialize implementation (schema.rs line 12): the five fields in declaration
order, each IndexMap written out as its entry sequence in iteration
(insertion) order.  Leaf values (strings, types, aggregation functions) are
carried verbatim. -/
structure SerializedCubeSchema where
  name : String
  dimensions : List (String × Dimension)
  measures : List (String × Measure)
  hierarchies : List (String × Hierarchy)
  description : Option String
deriving DecidableEq

/-- Serialization of a CubeSchema to its structured representation. -/
def CubeSchema.serialize (s : CubeSchema) : SerializedCubeSchema :=
  ⟨s.name, s.dimensions.entries, s.measures.entries, s.hierarchies.entries,
    s.description⟩

/-- Deserialization of an entry sequence into an IndexMap, as the derived
Deserialize implementation does: successive inserts into an empty map. -/
def IndexMap.ofEntries {α : Type} (l : List (String × α)) : IndexMap α :=
  l.foldl (fun m e => m.insert e.1 e.2) .empty

/-- Deserialization of the structured representation back into a
CubeSchema. -/
def SerializedCubeSchema.deserialize (r : SerializedCubeSchema) : CubeSchema :=
  ⟨r.name, .ofEntries r.dimensions, .ofEntries r.measures,
    .ofEntries r.hierarchies, r.description⟩

/-- Record batch, abstracted to what the embedded code reads: its schema and
its row count (arrow::record_batch::RecordBatch is an external
dependency). -/
structure RecordBatch where
  schema : ArrowSchema
  numRows : Nat
deriving DecidableEq

/-- ElastiCube (cube/mod.rs lines 24-37): cube schema, Arrow schema, batch
sequence, stored row count. -/
structure ElastiCube where
  schema : CubeSchema
  arrowSchema : ArrowSchema
  data : List RecordBatch
  rowCount : Nat
deriving DecidableEq

/-- ElastiCube::new (cube/mod.rs lines 41-54): sums the batch row counts and
returns Ok unconditionally; no validation of the batches is performed. -/
def ElastiCube.new (schema : CubeSchema) (arrowSchema : ArrowSchema)
    (data : List RecordBatch) : Except Error ElastiCube :=
  .ok ⟨schema, arrowSchema, data, (data.map (fun b => b.numRows)).sum⟩

/-- ElastiCube::row_count (cube/mod.rs lines 72-74). -/
def ElastiCube.rowCountFn (c : ElastiCube) : Nat :=
  c.rowCount

/-- In-memory data source (sources.rs lines 312-315). -/
structure RecordBatchSource where
  schema : ArrowSchema
  batches : List RecordBatch
deriving DecidableEq

/-- RecordBatchSource::new (sources.rs lines 317-334): rejects an empty
batch list, rejects any batch whose schema differs from the provided one. -/
def RecordBatchSource.new (schema : ArrowSchema) (batches : List RecordBatch) :
    Except Error RecordBatchSource :=
  if batches.isEmpty then
    .error (.dataError "RecordBatchSource requires at least one batch")
  else if _h : ∀ b ∈ batches, b.schema = schema then
    .ok ⟨schema, batches⟩
  else
    .error (.schemaError "All RecordBatches must have the same schema as the provided schema")

/-- Data source, embedded by its single observable behaviour: the outcome of
load() -> Result<(schema, batches)> (sources.rs lines 14-19; trait objects
are characterized by this one operation). -/
structure DataSource where
  loadResult : Except Error (ArrowSchema × List RecordBatch)

/-- DataSource::load. -/
def DataSource.load (s : DataSource) : Except Error (ArrowSchema × List RecordBatch) :=
  s.loadResult

/-- DataSource implementation of RecordBatchSource (sources.rs lines
337-341): load returns the stored schema and batches. -/
def RecordBatchSource.toDataSource (s : RecordBatchSource) : DataSource :=
  ⟨.ok (s.schema, s.batches)⟩

/-- ElastiCubeBuilder (builder.rs lines 15-18). -/
structure ElastiCubeBuilder where
  schema : CubeSchema
  dataSource : Option DataSource

/-- ElastiCubeBuilder::new (builder.rs lines 22-27). -/
def ElastiCubeBuilder.new (name : String) : ElastiCubeBuilder :=
  ⟨CubeSchema.new name, none⟩

/-- ElastiCubeBuilder::add_dimension (builder.rs lines 30-38). -/
def ElastiCubeBuilder.addDimension (b : ElastiCubeBuilder) (name : String)
    (dataType : DataType) : Except Error ElastiCubeBuilder :=
  match b.schema.addDimension ⟨name, dataType⟩ with
  | (.ok _, s) => .ok { b with schema := s }
  | (.error e, _) => .error e

/-- ElastiCubeBuilder::add_measure (builder.rs lines 41-50). -/
def ElastiCubeBuilder.addMeasure (b : ElastiCubeBuilder) (name : String)
    (dataType : DataType) (aggFunc : AggFunc) : Except Error ElastiCubeBuilder :=
  match b.schema.addMeasure ⟨name, dataType, aggFunc⟩ with
  | (.ok _, s) => .ok { b with schema := s }
  | (.error e, _) => .error e

/-- ElastiCubeBuilder::add_hierarchy (builder.rs lines 53-61). -/
def ElastiCubeBuilder.addHierarchy (b : ElastiCubeBuilder) (name : String)
    (levels : List String) : Except Error ElastiCubeBuilder :=
  match b.schema.addHierarchy ⟨name, levels⟩ with
  | (.ok _, s) => .ok { b with schema := s }
  | (.error e, _) => .error e

/-- ElastiCubeBuilder::load_record_batches (builder.rs lines 142-150). -/
def ElastiCubeBuilder.loadRecordBatches (b : ElastiCubeBuilder)
    (schema : ArrowSchema) (batches : List RecordBatch) :
    Except Error ElastiCubeBuilder :=
  match RecordBatchSource.new schema batches with
  | .ok src => .ok { b with dataSource := some src.toDataSource }
  | .error e => .error e

/-- Schema::field_with_name of the external Arrow dependency: the first
field bearing the name, if any. -/
def fieldWithName (schema : ArrowSchema) (n : String) : Option ArrowField :=
  schema.find? (fun f => f.name == n)

/-- Loop body of validate_schema_compatibility (builder.rs lines 198-222),
walking the expected fields: each must be found in the loaded schema (first
match) and carry an equal data type. -/
def validateFields (loaded : ArrowSchema) : List ArrowField → Except Error Unit
  | [] => .ok ()
  | f :: fs =>
    match fieldWithName loaded f.name with
    | none => .error (.schemaFieldNotFound f.name)
    | some lf =>
      if f.dataType ≠ lf.dataType then
        .error (.schemaTypeMismatch f.name f.dataType lf.dataType)
      else
        validateFields loaded fs

/-- validate_schema_compatibility (builder.rs lines 198-222). -/
def validateSchemaCompatibility (expected loaded : ArrowSchema) :
    Except Error Unit :=
  validateFields loaded expected

/-- Inference loop in the else-branch of build (builder.rs lines 182-185):
every loaded field is added as a dimension. -/
def inferDimensions (s : CubeSchema) : List ArrowField → Except Error CubeSchema
  | [] => .ok s
  | f :: fs =>
    match s.addDimension ⟨f.name, f.dataType⟩ with
    | (.ok _, s2) => inferDimensions s2 fs
    | (.error e, _) => .error e

/-- ElastiCubeBuilder::build (builder.rs lines 157-192): require a data
source, load it, and either validate the declared schema against the loaded
one (keeping the loaded schema as the cube's Arrow schema) or, with nothing
declared, infer every loaded field as a dimension. -/
def ElastiCubeBuilder.build (b : ElastiCubeBuilder) : Except Error ElastiCube :=
  match b.dataSource with
  | none => .error .builderNoSource
  | some src =>
    match src.load with
    | .error e => .error e
    | .ok (loadedSchema, batches) =>
      if b.schema.dimensionCount > 0 ∨ b.schema.measureCount > 0 then
        match validateSchemaCompatibility b.schema.toArrowSchema loadedSchema with
        | .error e => .error e
        | .ok _ => ElastiCube.new b.schema loadedSchema batches
      else
        match inferDimensions b.schema loadedSchema with
        | .error e => .error e
        | .ok s2 => ElastiCube.new s2 loadedSchema batches

/-- Modelled from the spec: the core QueryBuilder (crate::query, not under
src/) accumulates select, filter (ANDed), group-by, order-by and limit
clauses, each fluent call returning the updated builder (§4.3). -/
structure QueryBuilder where
  selectCols : List String
  filterPred : Option String
  groupByCols : List String
  orderByCols : List String
  limitN : Option Nat
deriving DecidableEq

/-- Modelled from the spec: QueryBuilder::select. -/
def QueryBuilder.select (b : QueryBuilder) (cols : List String) : QueryBuilder :=
  { b with selectCols := cols }

/-- Modelled from the spec: QueryBuilder::filter, ANDed with any existing
predicate. -/
def QueryBuilder.filter (b : QueryBuilder) (cond : String) : QueryBuilder :=
  let newPred :=
    match b.filterPred with
    | none => cond
    | some p => p ++ " AND " ++ cond
  { b with filterPred := some newPred }

/-- Modelled from the spec: QueryBuilder::group_by. -/
def QueryBuilder.groupBy (b : QueryBuilder) (cols : List String) : QueryBuilder :=
  { b with groupByCols := cols }

/-- Modelled from the spec: QueryBuilder::order_by. -/
def QueryBuilder.orderBy (b : QueryBuilder) (cols : List String) : QueryBuilder :=
  { b with orderByCols := cols }

/-- Modelled from the spec: QueryBuilder::limit. -/
def QueryBuilder.limit (b : QueryBuilder) (n : Nat) : QueryBuilder :=
  { b with limitN := some n }

/-- PyQueryBuilder (elasticube-py lib.rs lines 140-143): an Option holding
the core builder, taken and put back by each method. -/
structure PyQueryBuilder where
  builder : Option QueryBuilder
deriving DecidableEq

/-- PyQueryBuilder::select (lib.rs lines 148-156): take the builder, fail
with the builder-consumed error when absent, else store the updated
builder. -/
def PyQueryBuilder.select (st : PyQueryBuilder) (cols : List String) :
    Except Error Unit × PyQueryBuilder :=
  match st.builder with
  | none => (.error .builderConsumed, st)
  | some b => (.ok (), ⟨some (b.select cols)⟩)

/-- PyQueryBuilder::filter (lib.rs lines 159-166). -/
def PyQueryBuilder.filter (st : PyQueryBuilder) (cond : String) :
    Except Error Unit × PyQueryBuilder :=
  match st.builder with
  | none => (.error .builderConsumed, st)
  | some b => (.ok (), ⟨some (b.filter cond)⟩)

/-- PyQueryBuilder::group_by (lib.rs lines 169-177). -/
def PyQueryBuilder.groupBy (st : PyQueryBuilder) (cols : List String) :
    Except Error Unit × PyQueryBuilder :=
  match st.builder with
  | none => (.error .builderConsumed, st)
  | some b => (.ok (), ⟨some (b.groupBy cols)⟩)

/-- PyQueryBuilder::order_by (lib.rs lines 180-188). -/
def PyQueryBuilder.orderBy (st : PyQueryBuilder) (cols : List String) :
    Except Error Unit × PyQueryBuilder :=
  match st.builder with
  | none => (.error .builderConsumed, st)
  | some b => (.ok (), ⟨some (b.orderBy cols)⟩)

/-- PyQueryBuilder::limit (lib.rs lines 191-198). -/
def PyQueryBuilder.limit (st : PyQueryBuilder) (n : Nat) :
    Except Error Unit × PyQueryBuilder :=
  match st.builder with
  | none => (.error .builderConsumed, st)
  | some b => (.ok (), ⟨some (b.limit n)⟩)

/-- PyQueryBuilder::execute (lib.rs lines 201-214): take the builder, fail
with the builder-consumed error when absent; otherwise the builder is
consumed for good and its accumulated query is executed — the executed
query is the Ok payload, so an error outcome means no query was
performed. -/
def PyQueryBuilder.execute (st : PyQueryBuilder) :
    Except Error QueryBuilder × PyQueryBuilder :=
  match st.builder with
  | none => (.error .builderConsumed, st)
  | some b => (.ok b, ⟨none⟩)

/-- Modelled from the spec: append_batches of the mutation engine (§4.6, not
under src/): validate each batch's schema against the cube's (else a
schema-mismatch error), push the batches, update the row count, and return
the number of rows added.  As with the schema registry, the call's result is
paired with the post-call cube. -/
def ElastiCube.appendBatches (c : ElastiCube) (bs : List RecordBatch) :
    Except Error Nat × ElastiCube :=
  if _h : ∀ b ∈ bs, b.schema = c.arrowSchema then
    let added := (bs.map (fun b => b.numRows)).sum
    (.ok added, { c with data := c.data ++ bs, rowCount := c.rowCount + added })
  else
    (.error (.schemaError "SchemaMismatch"), c)

/-- Modelled from the spec: append_rows (§4.6) appends a single batch. -/
def ElastiCube.appendRows (c : ElastiCube) (b : RecordBatch) :
    Except Error Nat × ElastiCube :=
  c.appendBatches [b]

/-- Modelled from the spec: delete_rows (§4.6).  The replacement batch
sequence is produced by the external execution adapter, embedded here by its
outcome; on failure the original batches are retained, on success they are
replaced atomically and the number of deleted rows returned. -/
def ElastiCube.deleteRows (c : ElastiCube)
    (replacement : Except Error (List RecordBatch)) :
    Except Error Nat × ElastiCube :=
  match replacement with
  | .error e => (.error e, c)
  | .ok bs =>
    let newCount := (bs.map (fun b => b.numRows)).sum
    (.ok (c.rowCount - newCount), { c with data := bs, rowCount := newCount })

/-- Modelled from the spec: update_rows (§4.6) is delete_rows followed by
append_rows; a failing append leaves the delete applied. -/
def ElastiCube.updateRows (c : ElastiCube)
    (replacement : Except Error (List RecordBatch)) (b : RecordBatch) :
    Except Error (Nat × Nat) × ElastiCube :=
  match c.deleteRows replacement with
  | (.error e, c1) => (.error e, c1)
  | (.ok deleted, c1) =>
    match c1.appendRows b with
    | (.error e, c2) => (.error e, c2)
    | (.ok added, c2) => (.ok (deleted, added), c2)

/-- Modelled from the spec: consolidate_batches (§4.6) merges all batches
into a single batch preserving row order and count, returning the prior
batch count. -/
def ElastiCube.consolidateBatches (c : ElastiCube) : Nat × ElastiCube :=
  (c.data.length,
   { c with
       data := [⟨c.arrowSchema, (c.data.map (fun b => b.numRows)).sum⟩],
       rowCount := c.rowCount })

/-- Row-count invariant of the spec: the stored row count equals the sum of
the batch row counts. -/
def rowCountInvariant (c : ElastiCube) : Prop :=
  c.rowCount = (c.data.map (fun b => b.numRows)).sum

/-- One schema-registry operation, used to quantify over the six mutating
calls of CubeSchema at once. -/
inductive SchemaOp where
  | addDim (d : Dimension)
  | addMeas (m : Measure)
  | addHier (h : Hierarchy)
  | removeDim (n : String)
  | removeMeas (n : String)
  | removeHier (n : String)

/-- Outcome payload of a schema-registry operation. -/
inductive SchemaOpOutcome where
  | unit
  | dim (d : Dimension)
  | meas (m : Measure)
  | hier (h : Hierarchy)
deriving DecidableEq

/-- Run a schema-registry operation, delegating to the corresponding
CubeSchema method. -/
def SchemaOp.run (op : SchemaOp) (s : CubeSchema) :
    Except Error SchemaOpOutcome × CubeSchema :=
  match op with
  | .addDim d =>
    match s.addDimension d with
    | (.ok _, s2) => (.ok .unit, s2)
    | (.error e, s2) => (.error e, s2)
  | .addMeas m =>
    match s.addMeasure m with
    | (.ok _, s2) => (.ok .unit, s2)
    | (.error e, s2) => (.error e, s2)
  | .addHier h =>
    match s.addHierarchy h with
    | (.ok _, s2) => (.ok .unit, s2)
    | (.error e, s2) => (.error e, s2)
  | .removeDim n =>
    match s.removeDimension n with
    | (.ok d, s2) => (.ok (.dim d), s2)
    | (.error e, s2) => (.error e, s2)
  | .removeMeas n =>
    match s.removeMeasure n with
    | (.ok m, s2) => (.ok (.meas m), s2)
    | (.error e, s2) => (.error e, s2)
  | .removeHier n =>
    match s.removeHierarchy n with
    | (.ok h, s2) => (.ok (.hier h), s2)
    | (.error e, s2) => (.error e, s2)

/-- Compatibility predicate worded as claim C10 words it: every declared
field name exists somewhere in the loaded schema with exactly the declared
data type (to be compared against the code's first-match lookup). -/
def declaredFieldsExistIn (expected loaded : ArrowSchema) : Prop :=
  ∀ f ∈ expected, ∃ lf ∈ loaded, lf.name = f.name ∧ lf.dataType = f.dataType

/-- Compatibility predicate as the code checks it: for every declared field,
the first loaded field bearing its name exists and has the declared type. -/
def firstMatchCompatible (expected loaded : ArrowSchema) : Prop :=
  ∀ f ∈ expected, ∃ lf, fieldWithName loaded f.name = some lf ∧ lf.dataType = f.dataType

instance (expected loaded : ArrowSchema) : Decidable (declaredFieldsExistIn expected loaded) := by
  unfold declaredFieldsExistIn; infer_instance

instance (expected loaded : ArrowSchema) : Decidable (firstMatchCompatible expected loaded) := by
  unfold firstMatchCompatible
  refine List.decidableBAll _ expected

/-! Helper lemmas: every schema-registry operation either succeeds or
returns its input schema unchanged, because each early return happens
before any mutation. -/

lemma addDimension_state (s : CubeSchema) (d : Dimension) :
    (s.addDimension d).1 = .ok () ∨ (s.addDimension d).2 = s := by
  unfold CubeSchema.addDimension
  split
  · right; rfl
  · left; rfl

lemma addMeasure_state (s : CubeSchema) (m : Measure) :
    (s.addMeasure m).1 = .ok () ∨ (s.addMeasure m).2 = s := by
  unfold CubeSchema.addMeasure
  simp only [Measure.validate]
  split
  · right; rfl
  · left; rfl

lemma addHierarchy_state (s : CubeSchema) (hi : Hierarchy) :
    (s.addHierarchy hi).1 = .ok () ∨ (s.addHierarchy hi).2 = s := by
  unfold CubeSchema.addHierarchy
  simp only [Hierarchy.validate]
  split
  · right; rfl
  · split
    · right; rfl
    · left; rfl

lemma removeDimension_state (s : CubeSchema) (n : String) :
    (∃ d, (s.removeDimension n).1 = .ok d) ∨ (s.removeDimension n).2 = s := by
  unfold CubeSchema.removeDimension
  split
  · right; rfl
  · split
    · exact Or.inl ⟨_, rfl⟩
    · right; rfl

lemma removeMeasure_state (s : CubeSchema) (n : String) :
    (∃ m, (s.removeMeasure n).1 = .ok m) ∨ (s.removeMeasure n).2 = s := by
  unfold CubeSchema.removeMeasure
  split
  · exact Or.inl ⟨_, rfl⟩
  · right; rfl

lemma removeHierarchy_state (s : CubeSchema) (n : String) :
    (∃ hh, (s.removeHierarchy n).1 = .ok hh) ∨ (s.removeHierarchy n).2 = s := by
  unfold CubeSchema.removeHierarchy
  split
  · exact Or.inl ⟨_, rfl⟩
  · right; rfl

lemma schemaOp_run_state (op : SchemaOp) (s : CubeSchema) :
    (∃ o, (op.run s).1 = .ok o) ∨ (op.run s).2 = s := by
  cases op with
  | addDim d =>
    simp only [SchemaOp.run]
    rcases h1 : s.addDimension d with ⟨r, s2⟩
    cases r with
    | ok u => exact Or.inl ⟨.unit, rfl⟩
    | error e2 =>
      refine Or.inr ?_
      rcases addDimension_state s d with h2 | h2 <;> rw [h1] at h2
      · simp at h2
      · exact h2
  | addMeas m =>
    simp only [SchemaOp.run]
    rcases h1 : s.addMeasure m with ⟨r, s2⟩
    cases r with
    | ok u => exact Or.inl ⟨.unit, rfl⟩
    | error e2 =>
      refine Or.inr ?_
      rcases addMeasure_state s m with h2 | h2 <;> rw [h1] at h2
      · simp at h2
      · exact h2
  | addHier hh =>
    simp only [SchemaOp.run]
    rcases h1 : s.addHierarchy hh with ⟨r, s2⟩
    cases r with
    | ok u => exact Or.inl ⟨.unit, rfl⟩
    | error e2 =>
      refine Or.inr ?_
      rcases addHierarchy_state s hh with h2 | h2 <;> rw [h1] at h2
      · simp at h2
      · exact h2
  | removeDim n =>
    simp only [SchemaOp.run]
    rcases h1 : s.removeDimension n with ⟨r, s2⟩
    cases r with
    | ok d => exact Or.inl ⟨.dim d, rfl⟩
    | error e2 =>
      refine Or.inr ?_
      rcases removeDimension_state s n with ⟨d, h2⟩ | h2 <;> rw [h1] at h2
      · simp at h2
      · exact h2
  | removeMeas n =>
    simp only [SchemaOp.run]
    rcases h1 : s.removeMeasure n with ⟨r, s2⟩
    cases r with
    | ok m => exact Or.inl ⟨.meas m, rfl⟩
    | error e2 =>
      refine Or.inr ?_
      rcases removeMeasure_state s n with ⟨m, h2⟩ | h2 <;> rw [h1] at h2
      · simp at h2
      · exact h2
  | removeHier n =>
    simp only [SchemaOp.run]
    rcases h1 : s.removeHierarchy n with ⟨r, s2⟩
    cases r with
    | ok hh => exact Or.inl ⟨.hier hh, rfl⟩
    | error e2 =>
      refine Or.inr ?_
      rcases removeHierarchy_state s n with ⟨hh, h2⟩ | h2 <;> rw [h1] at h2
      · simp at h2
      · exact h2

/-- Claim C4: whenever one of the six schema-registry operations
(add_dimension, add_measure, add_hierarchy, remove_dimension,
remove_measure, remove_hierarchy) returns an error, the schema after the
call is exactly the schema before it. -/
theorem schemaOp_error_leaves_schema_unchanged (op : SchemaOp) (s : CubeSchema)
    (e : Error) (h : (op.run s).1 = .error e) : (op.run s).2 = s := by
  rcases schemaOp_run_state op s with ⟨o, h1⟩ | h1
  · rw [h] at h1; simp at h1
  · exact h1

/-- Witness for C4: removing an absent dimension from a schema that holds
one dimension fails and leaves the schema unchanged. -/
theorem schemaOp_error_leaves_schema_unchanged_witness :
    ((SchemaOp.removeDim "y").run
        ((CubeSchema.new "t").addDimension ⟨"x", .utf8⟩).2).2
      = ((CubeSchema.new "t").addDimension ⟨"x", .utf8⟩).2 :=
  schemaOp_error_leaves_schema_unchanged (.removeDim "y")
    ((CubeSchema.new "t").addDimension ⟨"x", .utf8⟩).2
    (.dimensionNotFound "y") (by rfl)

/-- Claim C5: remove_dimension fails with the referenced-by error exactly
when some hierarchy in the schema lists the name among its levels; when no
hierarchy references the name and the dimension exists, the call succeeds,
returns the stored dimension, and shift-removes its entry. -/
theorem removeDimension_referencedBy_iff (s : CubeSchema) (n : String) :
    ((∃ hn, (s.removeDimension n).1 = .error (.referencedBy n hn)) ↔
      (∃ hh ∈ s.hierarchies.values, hh.containsLevel n = true)) ∧
    (∀ d, s.dimensions.get n = some d →
      (∀ hh ∈ s.hierarchies.values, hh.containsLevel n = false) →
      s.removeDimension n =
        (.ok d, { s with dimensions := ⟨removeFirstKey s.dimensions.entries n⟩ })) := by
  unfold CubeSchema.removeDimension
  split
  next hh heq =>
    have hmem := List.mem_of_find?_eq_some heq
    have hlev := List.find?_some heq
    constructor
    · constructor
      · intro _; exact ⟨hh, hmem, hlev⟩
      · intro _; exact ⟨hh.name, rfl⟩
    · intro d _ hnone
      have := hnone hh hmem
      rw [hlev] at this
      cases this
  next heq =>
    have hnone := List.find?_eq_none.mp heq
    constructor
    · constructor
      · intro ⟨hn, he⟩
        exfalso
        revert he
        split
        · intro he; cases he
        · intro he; cases he
      · intro ⟨hh, hmem, hlev⟩
        exact absurd hlev (by simpa using hnone hh hmem)
    · intro d hget _
      split
      next d2 m2 heq2 =>
        have h1 : s.dimensions.get n = some d2 := congrArg Prod.fst heq2
        have h2 : (⟨removeFirstKey s.dimensions.entries n⟩ : IndexMap Dimension) = m2 :=
          congrArg Prod.snd heq2
        rw [hget] at h1
        cases h1
        rw [h2]
      next m2 heq2 =>
        have h1 : s.dimensions.get n = none := congrArg Prod.fst heq2
        rw [hget] at h1
        cases h1

/-- Witness for C5: in a schema holding the single dimension x and no
hierarchy, removing x succeeds and returns it. -/
theorem removeDimension_referencedBy_iff_witness :
    ((CubeSchema.new "t").addDimension ⟨"x", .utf8⟩).2.removeDimension "x" =
      (.ok ⟨"x", .utf8⟩,
       { ((CubeSchema.new "t").addDimension ⟨"x", .utf8⟩).2 with
           dimensions :=
             ⟨removeFirstKey
               ((CubeSchema.new "t").addDimension ⟨"x", .utf8⟩).2.dimensions.entries "x"⟩ }) :=
  (removeDimension_referencedBy_iff
      ((CubeSchema.new "t").addDimension ⟨"x", .utf8⟩).2 "x").2
    ⟨"x", .utf8⟩ (by rfl) (by intro hh hmem; cases hmem)

/-- Claim C6: add_hierarchy fails with the unknown-level error whenever some
level is not an existing dimension, leaving the schema unchanged; when every
level names an existing dimension and the hierarchy name is fresh, the call
succeeds and inserts the hierarchy.  Hierarchy::validate is modelled from
the spec as always succeeding. -/
theorem addHierarchy_unknownLevel_spec (s : CubeSchema) (hi : Hierarchy) :
    ((∃ l ∈ hi.levels, s.dimensions.containsKey l = false) →
      (∃ l ∈ hi.levels, (s.addHierarchy hi).1 = .error (.unknownLevel hi.name l)) ∧
        (s.addHierarchy hi).2 = s) ∧
    ((∀ l ∈ hi.levels, s.dimensions.containsKey l = true) →
      s.hierarchies.containsKey hi.name = false →
      s.addHierarchy hi =
        (.ok (), { s with hierarchies := s.hierarchies.insert hi.name hi })) := by
  unfold CubeSchema.addHierarchy
  simp only [Hierarchy.validate]
  split
  next l heq =>
    have hmem := List.mem_of_find?_eq_some heq
    have hlev : s.dimensions.containsKey l = false := by
      simpa using List.find?_some heq
    constructor
    · intro _
      exact ⟨⟨l, hmem, rfl⟩, rfl⟩
    · intro hall _
      rw [hall l hmem] at hlev
      cases hlev
  next heq =>
    have hnone := List.find?_eq_none.mp heq
    constructor
    · intro ⟨l, hmem, hfail⟩
      have := hnone l hmem
      simp [hfail] at this
    · intro _ hname
      simp [hname]

/-- Witness for C6: a hierarchy whose single level does not name a dimension
is rejected with the unknown-level error and the schema is unchanged. -/
theorem addHierarchy_unknownLevel_spec_witness :
    (∃ l ∈ (⟨"h", ["year"]⟩ : Hierarchy).levels,
        ((CubeSchema.new "t").addHierarchy ⟨"h", ["year"]⟩).1 =
          .error (.unknownLevel "h" l)) ∧
      ((CubeSchema.new "t").addHierarchy ⟨"h", ["year"]⟩).2 = CubeSchema.new "t" :=
  (addHierarchy_unknownLevel_spec (CubeSchema.new "t") ⟨"h", ["year"]⟩).1
    ⟨"year", by simp, by rfl⟩

/-- Counterexample to claim C1 as stated: after adding a dimension named x,
add_measure with the same name x succeeds instead of failing with a name
conflict — the field namespace is not shared between kinds. -/
theorem measure_name_may_equal_dimension_name :
    (((CubeSchema.new "t").addDimension ⟨"x", .utf8⟩).2.dimensions.containsKey "x" = true) ∧
      ((((CubeSchema.new "t").addDimension ⟨"x", .utf8⟩).2.addMeasure
          ⟨"x", .float64, .sum⟩).1 = .ok ()) := by
  exact ⟨rfl, rfl⟩

/-- Claim C1 (amended): each add operation fails with its name-conflict
error exactly when the name already exists among fields of the same kind —
dimensions for add_dimension, measures for add_measure, hierarchies for
add_hierarchy (stated for hierarchies whose levels all name existing
dimensions, so that the earlier unknown-level check does not fire); a name
used by a field of another kind does not make the call fail. -/
theorem addOps_nameConflict_same_kind (s : CubeSchema) (d : Dimension) (m : Measure)
    (hi : Hierarchy) (hlev : ∀ l ∈ hi.levels, s.dimensions.containsKey l = true) :
    ((s.addDimension d).1 = .error (.dimensionExists d.name) ↔
      s.dimensions.containsKey d.name = true) ∧
    ((s.addMeasure m).1 = .error (.measureExists m.name) ↔
      s.measures.containsKey m.name = true) ∧
    ((s.addHierarchy hi).1 = .error (.hierarchyExists hi.name) ↔
      s.hierarchies.containsKey hi.name = true) := by
  have hn : hi.levels.find? (fun l => ! s.dimensions.containsKey l) = none :=
    List.find?_eq_none.mpr (fun l hl => by simp [hlev l hl])
  refine ⟨?_, ?_, ?_⟩
  · by_cases hc : s.dimensions.containsKey d.name = true
    · simp [CubeSchema.addDimension, hc]
    · simp [CubeSchema.addDimension, hc]
  · by_cases hc : s.measures.containsKey m.name = true
    · simp [CubeSchema.addMeasure, Measure.validate, hc]
    · simp [CubeSchema.addMeasure, Measure.validate, hc]
  · by_cases hc : s.hierarchies.containsKey hi.name = true
    · simp [CubeSchema.addHierarchy, Hierarchy.validate, hn, hc]
    · simp [CubeSchema.addHierarchy, Hierarchy.validate, hn, hc]

/-- Witness for C1 (amended): instantiated at an empty schema, a dimension,
a measure and an empty-level hierarchy. -/
theorem addOps_nameConflict_same_kind_witness :
    (((CubeSchema.new "t").addDimension ⟨"x", .utf8⟩).1 =
        .error (.dimensionExists "x") ↔
      (CubeSchema.new "t").dimensions.containsKey "x" = true) ∧
    (((CubeSchema.new "t").addMeasure ⟨"y", .float64, .sum⟩).1 =
        .error (.measureExists "y") ↔
      (CubeSchema.new "t").measures.containsKey "y" = true) ∧
    (((CubeSchema.new "t").addHierarchy ⟨"h", []⟩).1 =
        .error (.hierarchyExists "h") ↔
      (CubeSchema.new "t").hierarchies.containsKey "h" = true) :=
  addOps_nameConflict_same_kind (CubeSchema.new "t") ⟨"x", .utf8⟩
    ⟨"y", .float64, .sum⟩ ⟨"h", []⟩ (by intro l hl; cases hl)

lemma removeFirstKey_sublist {α : Type} (l : List (String × α)) (k : String) :
    (removeFirstKey l k).Sublist l := by
  induction l with
  | nil => simp [removeFirstKey]
  | cons e es ih =>
    unfold removeFirstKey
    by_cases hc : (e.1 == k) = true
    · simp [hc]
    · simp only [hc]
      simp only [Bool.false_eq_true, if_false]
      exact List.Sublist.cons₂ e ih

/-- Claim C7: to_arrow_schema lists exactly one nullable field per dimension
in dimension insertion order, then one per measure in measure insertion
order, each carrying the declared name and type; adding a fresh dimension
appends its entry after all existing ones without touching them, and
removing a dimension keeps the surviving entries in their original relative
order, with the measures map untouched in both cases. -/
theorem toArrowSchema_spec (s : CubeSchema) (d : Dimension) (n : String)
    (hfresh : s.dimensions.containsKey d.name = false)
    (hno : ∀ hh ∈ s.hierarchies.values, hh.containsLevel n = false) :
    (s.toArrowSchema =
      s.dimensions.values.map (fun dd => ⟨dd.name, dd.dataType, true⟩) ++
        s.measures.values.map (fun mm => ⟨mm.name, mm.dataType, true⟩)) ∧
    (((s.addDimension d).2).dimensions.entries = s.dimensions.entries ++ [(d.name, d)] ∧
      ((s.addDimension d).2).measures = s.measures) ∧
    (((s.removeDimension n).2).dimensions.entries.Sublist s.dimensions.entries ∧
      ((s.removeDimension n).2).measures = s.measures) := by
  have hn : s.hierarchies.values.find? (fun hh => hh.containsLevel n) = none :=
    List.find?_eq_none.mpr (fun hh hm => by simp [hno hh hm])
  refine ⟨rfl, ⟨?_, ?_⟩, ?_⟩
  · simp [CubeSchema.addDimension, hfresh, IndexMap.insert]
  · simp [CubeSchema.addDimension, hfresh]
  · simp only [CubeSchema.removeDimension, hn, IndexMap.shiftRemove]
    rcases hg : s.dimensions.get n with _ | d2
    · simp only [hg]
      exact ⟨List.Sublist.refl _, trivial⟩
    · simp only [hg]
      exact ⟨removeFirstKey_sublist s.dimensions.entries n, trivial⟩

/-- Witness for C7: in a schema with the single dimension a, adding the
fresh dimension b appends its entry. -/
theorem toArrowSchema_spec_witness :
    ((((CubeSchema.new "t").addDimension ⟨"a", .utf8⟩).2.addDimension
        ⟨"b", .int32⟩).2).dimensions.entries =
      ((CubeSchema.new "t").addDimension ⟨"a", .utf8⟩).2.dimensions.entries ++
        [("b", ⟨"b", .int32⟩)] :=
  (toArrowSchema_spec ((CubeSchema.new "t").addDimension ⟨"a", .utf8⟩).2
    ⟨"b", .int32⟩ "a" (by decide) (by intro hh hm; cases hm)).2.1.1

/-- Counterexample to claim C2 as stated: ElastiCube::new accepts, without
any error, a batch vector whose two batches carry different schemas; the
resulting cube violates the uniform-batch-schema invariant. -/
theorem elastiCube_new_skips_batch_validation :
    ElastiCube.new (CubeSchema.new "t") []
        [⟨[⟨"a", .int32, true⟩], 1⟩, ⟨[], 1⟩] =
      .ok ⟨CubeSchema.new "t", [],
        [⟨[⟨"a", .int32, true⟩], 1⟩, ⟨[], 1⟩], 2⟩ ∧
    (⟨[⟨"a", .int32, true⟩], 1⟩ : RecordBatch).schema ≠
      (⟨[], 1⟩ : RecordBatch).schema := by
  exact ⟨rfl, by decide⟩

lemma build_ok_fields (b : ElastiCubeBuilder) (ds : DataSource)
    (loaded : ArrowSchema) (batches : List RecordBatch) (c : ElastiCube)
    (hds : b.dataSource = some ds) (hload : ds.load = .ok (loaded, batches))
    (hok : b.build = .ok c) :
    c.arrowSchema = loaded ∧ c.data = batches ∧
      (b.schema.dimensionCount > 0 ∨ b.schema.measureCount > 0 → c.schema = b.schema) := by
  unfold ElastiCubeBuilder.build at hok
  simp only [hds, hload] at hok
  by_cases hdecl : b.schema.dimensionCount > 0 ∨ b.schema.measureCount > 0
  · rw [if_pos hdecl] at hok
    rcases hv : validateSchemaCompatibility b.schema.toArrowSchema loaded with e | u
    · simp only [hv] at hok
      cases hok
    · simp only [hv] at hok
      unfold ElastiCube.new at hok
      injection hok with h2
      subst h2
      exact ⟨rfl, rfl, fun _ => rfl⟩
  · rw [if_neg hdecl] at hok
    rcases hi2 : inferDimensions b.schema loaded with e | s2
    · simp only [hi2] at hok
      cases hok
    · simp only [hi2] at hok
      unfold ElastiCube.new at hok
      injection hok with h2
      subst h2
      exact ⟨rfl, rfl, fun hd2 => absurd hd2 hdecl⟩

/-- Claim C2 (amended): batch-schema uniformity is enforced by
RecordBatchSource::new, not by ElastiCube::new — a cube built through a
successfully constructed RecordBatchSource has every batch's schema equal to
its Arrow schema (hence all batches pairwise identical), and
RecordBatchSource::new rejects with an error any batch vector containing a
batch whose schema differs from the provided one. -/
theorem recordBatchSource_uniform_schema
    (schema : ArrowSchema) (batches : List RecordBatch) (src : RecordBatchSource)
    (b : ElastiCubeBuilder) (c : ElastiCube)
    (hnew : RecordBatchSource.new schema batches = .ok src)
    (hbuild : ElastiCubeBuilder.build { b with dataSource := some src.toDataSource } = .ok c) :
    (∀ bt ∈ c.data, bt.schema = c.arrowSchema) ∧
    (∀ b1 ∈ c.data, ∀ b2 ∈ c.data, b1.schema = b2.schema) ∧
    (∀ schema2 batches2, (∃ bt ∈ batches2, bt.schema ≠ schema2) →
      ∃ e, RecordBatchSource.new schema2 batches2 = .error e) := by
  unfold RecordBatchSource.new at hnew
  by_cases hemp : batches.isEmpty = true
  · rw [if_pos hemp] at hnew; cases hnew
  · rw [if_neg hemp] at hnew
    by_cases hall : ∀ bt ∈ batches, bt.schema = schema
    · rw [dif_pos hall] at hnew
      injection hnew with hsrc
      have hfields := build_ok_fields { b with dataSource := some src.toDataSource }
        src.toDataSource src.schema src.batches c rfl rfl hbuild
      subst hsrc
      have harrow : c.arrowSchema = schema := hfields.1
      have hdata : c.data = batches := hfields.2.1
      refine ⟨?_, ?_, ?_⟩
      · intro bt hbt
        rw [harrow]
        exact hall bt (by rw [← hdata]; exact hbt)
      · intro b1 hb1 b2 hb2
        have e1 := hall b1 (by rw [← hdata]; exact hb1)
        have e2 := hall b2 (by rw [← hdata]; exact hb2)
        rw [e1, e2]
      · intro schema2 batches2 ⟨bt, hbt, hne⟩
        refine ⟨.schemaError "All RecordBatches must have the same schema as the provided schema", ?_⟩
        unfold RecordBatchSource.new
        have hemp2 : batches2.isEmpty = false := by
          cases batches2 with
          | nil => cases hbt
          | cons x xs => rfl
        rw [hemp2]
        simp only [Bool.false_eq_true, if_false]
        rw [dif_neg (fun hall2 => hne (hall2 bt hbt))]
    · rw [dif_neg hall] at hnew; cases hnew

/-- Witness for C2 (amended): a single matching batch passes
RecordBatchSource::new and the built cube's only batch carries the cube's
Arrow schema. -/
theorem recordBatchSource_uniform_schema_witness :
    (⟨[⟨"a", .int32, true⟩], 3⟩ : RecordBatch).schema =
      (⟨((CubeSchema.new "t").addDimension ⟨"a", .int32⟩).2, [⟨"a", .int32, true⟩],
          [⟨[⟨"a", .int32, true⟩], 3⟩], 3⟩ : ElastiCube).arrowSchema :=
  (recordBatchSource_uniform_schema [⟨"a", .int32, true⟩]
      [⟨[⟨"a", .int32, true⟩], 3⟩] ⟨[⟨"a", .int32, true⟩], [⟨[⟨"a", .int32, true⟩], 3⟩]⟩
      (ElastiCubeBuilder.new "t")
      ⟨((CubeSchema.new "t").addDimension ⟨"a", .int32⟩).2, [⟨"a", .int32, true⟩],
        [⟨[⟨"a", .int32, true⟩], 3⟩], 3⟩
      (by rfl) (by rfl)).1
    ⟨[⟨"a", .int32, true⟩], 3⟩ (by simp)

lemma appendBatches_inv (c : ElastiCube) (bs : List RecordBatch)
    (h : rowCountInvariant c) : rowCountInvariant (c.appendBatches bs).2 := by
  unfold ElastiCube.appendBatches
  split
  · unfold rowCountInvariant at h ⊢
    simp only [List.map_append, List.sum_append]
    rw [h]
  · exact h

lemma deleteRows_inv (c : ElastiCube)
    (repl : Except Error (List RecordBatch)) (h : rowCountInvariant c) :
    rowCountInvariant (c.deleteRows repl).2 := by
  unfold ElastiCube.deleteRows
  rcases repl with e | bs
  · exact h
  · exact rfl

lemma updateRows_inv (c : ElastiCube)
    (repl : Except Error (List RecordBatch)) (bt : RecordBatch)
    (h : rowCountInvariant c) : rowCountInvariant (c.updateRows repl bt).2 := by
  unfold ElastiCube.updateRows
  rcases hd2 : c.deleteRows repl with ⟨r1, c1⟩
  have hc1 : rowCountInvariant c1 := by
    have h2 := deleteRows_inv c repl h
    rw [hd2] at h2
    exact h2
  cases r1 with
  | error e => exact hc1
  | ok deleted =>
    rcases ha : c1.appendRows bt with ⟨r2, c2⟩
    have hc2 : rowCountInvariant c2 := by
      have h2 := appendBatches_inv c1 [bt] hc1
      rw [show c1.appendBatches [bt] = c1.appendRows bt from rfl, ha] at h2
      exact h2
    cases r2 with
    | error e => simp only [ha]; exact hc2
    | ok added => simp only [ha]; exact hc2

lemma consolidateBatches_inv (c : ElastiCube) (h : rowCountInvariant c) :
    rowCountInvariant c.consolidateBatches.2 := by
  unfold ElastiCube.consolidateBatches rowCountInvariant at *
  simpa using h

/-- Claim C3: every cube produced by ElastiCube::new stores as row count the
sum of its batches' row counts (that is what row_count() returns), and the
row-count invariant is preserved by every mutation-engine operation —
append_rows, append_batches, delete_rows, update_rows and
consolidate_batches (the mutation engine is modelled from §4.6 of the spec;
its source is not under src/). -/
theorem rowCount_invariant_all_ops (s : CubeSchema) (as2 : ArrowSchema)
    (data bs : List RecordBatch) (bt : RecordBatch) (c : ElastiCube)
    (repl : Except Error (List RecordBatch)) (hinv : rowCountInvariant c) :
    (∀ c0, ElastiCube.new s as2 data = .ok c0 →
      rowCountInvariant c0 ∧
        c0.rowCountFn = (data.map (fun x => x.numRows)).sum) ∧
    rowCountInvariant (c.appendBatches bs).2 ∧
    rowCountInvariant (c.appendRows bt).2 ∧
    rowCountInvariant (c.deleteRows repl).2 ∧
    rowCountInvariant (c.updateRows repl bt).2 ∧
    rowCountInvariant c.consolidateBatches.2 := by
  refine ⟨?_, appendBatches_inv c bs hinv, appendBatches_inv c [bt] hinv,
    deleteRows_inv c repl hinv, updateRows_inv c repl bt hinv,
    consolidateBatches_inv c hinv⟩
  intro c0 h0
  unfold ElastiCube.new at h0
  injection h0 with h2
  subst h2
  exact ⟨rfl, rfl⟩

/-- Witness for C3: appending a three-row batch to an empty cube keeps the
invariant. -/
theorem rowCount_invariant_all_ops_witness :
    rowCountInvariant
      ((⟨CubeSchema.new "t", [], [], 0⟩ : ElastiCube).appendBatches [⟨[], 3⟩]).2 :=
  (rowCount_invariant_all_ops (CubeSchema.new "t") [] [] [⟨[], 3⟩] ⟨[], 3⟩
    ⟨CubeSchema.new "t", [], [], 0⟩ (.ok []) (by rfl)).2.1

/-- Claim C9: once a Python-level query builder has been consumed by
execute(), a second execute() and every fluent operation fail with the
builder-consumed error and leave the wrapper unchanged; the error outcome of
execute carries no executed query, so no query is performed. -/
theorem pyQueryBuilder_consumed (st : PyQueryBuilder) (cols gcols ocols : List String)
    (cond : String) (n : Nat) :
    ((st.execute.2).execute = (.error .builderConsumed, st.execute.2)) ∧
    ((st.execute.2).select cols = (.error .builderConsumed, st.execute.2)) ∧
    ((st.execute.2).filter cond = (.error .builderConsumed, st.execute.2)) ∧
    ((st.execute.2).groupBy gcols = (.error .builderConsumed, st.execute.2)) ∧
    ((st.execute.2).orderBy ocols = (.error .builderConsumed, st.execute.2)) ∧
    ((st.execute.2).limit n = (.error .builderConsumed, st.execute.2)) := by
  obtain ⟨ob⟩ := st
  cases ob with
  | none =>
    exact ⟨rfl, rfl, rfl, rfl, rfl, rfl⟩
  | some b =>
    exact ⟨rfl, rfl, rfl, rfl, rfl, rfl⟩

lemma validateFields_ok_iff (loaded : ArrowSchema) (fs : List ArrowField) :
    validateFields loaded fs = .ok () ↔
      ∀ f ∈ fs, ∃ lf, fieldWithName loaded f.name = some lf ∧
        lf.dataType = f.dataType := by
  induction fs with
  | nil => simp [validateFields]
  | cons f fs ih =>
    unfold validateFields
    rcases hw : fieldWithName loaded f.name with _ | lf
    · simp [hw]
    · split
      next hnone => cases hnone
      next lfm hsome =>
      injection hsome with hlf
      subst hlf
      split
      next hne =>
        constructor
        · intro hfalse
          cases hfalse
        · intro hall
          rcases hall f (List.mem_cons_self f fs) with ⟨lf2, hw2, ht2⟩
          rw [hw] at hw2
          injection hw2 with hlf2
          subst hlf2
          exact absurd ht2.symm hne
      next hne =>
        have ht : f.dataType = lf.dataType := not_not.mp hne
        rw [ih]
        constructor
        · intro hall g hg
          rcases List.mem_cons.mp hg with hg2 | hg2
          · subst hg2
            exact ⟨lf, hw, ht.symm⟩
          · exact hall g hg2
        · intro hall g hg
          exact hall g (List.mem_cons_of_mem f hg)

/-- Counterexample to claim C10 as stated: with the single declared
dimension x of type float64 and a loaded schema holding two fields named x
(first int32, then float64), every declared field name does exist in the
loaded schema with exactly the declared type, yet build() fails — the code
validates against the first field bearing the name. -/
theorem build_first_match_counterexample :
    declaredFieldsExistIn
        (((CubeSchema.new "t").addDimension ⟨"x", .float64⟩).2).toArrowSchema
        [⟨"x", .int32, true⟩, ⟨"x", .float64, true⟩] ∧
      ElastiCubeBuilder.build
          ⟨(((CubeSchema.new "t").addDimension ⟨"x", .float64⟩).2),
           some ⟨.ok ([⟨"x", .int32, true⟩, ⟨"x", .float64, true⟩],
                      [⟨[⟨"x", .int32, true⟩, ⟨"x", .float64, true⟩], 1⟩])⟩⟩ =
        .error (.schemaTypeMismatch "x" .float64 .int32) := by
  exact ⟨by decide, rfl⟩

/-- Claim C10 (amended): with at least one dimension or measure declared and
a data source whose load succeeds, build() succeeds exactly when, for every
declared field, the first loaded field bearing its name exists and has
exactly the declared data type (extra loaded columns impose no condition);
any successfully built cube keeps the loaded schema as its Arrow schema (not
the schema derived from the declarations), carries the loaded batches, and
keeps the declared cube schema. -/
theorem build_spec (b : ElastiCubeBuilder) (ds : DataSource)
    (loaded : ArrowSchema) (batches : List RecordBatch)
    (hds : b.dataSource = some ds) (hload : ds.load = .ok (loaded, batches))
    (hdecl : b.schema.dimensionCount > 0 ∨ b.schema.measureCount > 0) :
    ((∃ c, b.build = .ok c) ↔
      firstMatchCompatible b.schema.toArrowSchema loaded) ∧
    (∀ c, b.build = .ok c →
      c.arrowSchema = loaded ∧ c.data = batches ∧ c.schema = b.schema) := by
  constructor
  · unfold ElastiCubeBuilder.build
    simp only [hds, hload]
    rw [if_pos hdecl]
    rcases hv : validateSchemaCompatibility b.schema.toArrowSchema loaded with e | u
    · simp only [hv]
      constructor
      · intro ⟨c, hc⟩; cases hc
      · intro hcompat
        have hok : validateSchemaCompatibility b.schema.toArrowSchema loaded = .ok () :=
          (validateFields_ok_iff loaded b.schema.toArrowSchema).mpr hcompat
        rw [hv] at hok
        cases hok
    · simp only [hv]
      cases u
      constructor
      · intro _
        exact (validateFields_ok_iff loaded b.schema.toArrowSchema).mp hv
      · intro _
        exact ⟨_, rfl⟩
  · intro c hc
    have h2 := build_ok_fields b ds loaded batches c hds hload hc
    exact ⟨h2.1, h2.2.1, h2.2.2 hdecl⟩

/-- Witness for C10 (amended): one declared dimension matching the loaded
schema; the built cube keeps the loaded schema, batches and declarations. -/
theorem build_spec_witness :
    (⟨((CubeSchema.new "t").addDimension ⟨"x", .float64⟩).2,
        [⟨"x", .float64, true⟩], [⟨[⟨"x", .float64, true⟩], 2⟩], 2⟩ : ElastiCube).arrowSchema
        = [⟨"x", .float64, true⟩] ∧
    (⟨((CubeSchema.new "t").addDimension ⟨"x", .float64⟩).2,
        [⟨"x", .float64, true⟩], [⟨[⟨"x", .float64, true⟩], 2⟩], 2⟩ : ElastiCube).data
        = [⟨[⟨"x", .float64, true⟩], 2⟩] ∧
    (⟨((CubeSchema.new "t").addDimension ⟨"x", .float64⟩).2,
        [⟨"x", .float64, true⟩], [⟨[⟨"x", .float64, true⟩], 2⟩], 2⟩ : ElastiCube).schema
        = ((CubeSchema.new "t").addDimension ⟨"x", .float64⟩).2 :=
  (build_spec
      ⟨((CubeSchema.new "t").addDimension ⟨"x", .float64⟩).2,
        some ⟨.ok ([⟨"x", .float64, true⟩], [⟨[⟨"x", .float64, true⟩], 2⟩])⟩⟩
      ⟨.ok ([⟨"x", .float64, true⟩], [⟨[⟨"x", .float64, true⟩], 2⟩])⟩
      [⟨"x", .float64, true⟩] [⟨[⟨"x", .float64, true⟩], 2⟩]
      rfl rfl (Or.inl (by decide))).2
    ⟨((CubeSchema.new "t").addDimension ⟨"x", .float64⟩).2,
      [⟨"x", .float64, true⟩], [⟨[⟨"x", .float64, true⟩], 2⟩], 2⟩
    (by rfl)

lemma foldl_insert_fresh {α : Type} (l : List (String × α)) :
    ∀ m : IndexMap α, (l.map Prod.fst).Nodup →
      (∀ p ∈ l, m.containsKey p.1 = false) →
      l.foldl (fun m2 e => m2.insert e.1 e.2) m = ⟨m.entries ++ l⟩ := by
  induction l with
  | nil =>
    intro m _ _
    obtain ⟨es⟩ := m
    simp
  | cons p ps ih =>
    intro m hnd hfresh
    have hm : m.containsKey p.1 = false := hfresh p (List.mem_cons_self p ps)
    have hins : m.insert p.1 p.2 = ⟨m.entries ++ [p]⟩ := by
      unfold IndexMap.insert
      rw [hm]
      simp
    rw [List.foldl_cons, hins]
    rw [ih ⟨m.entries ++ [p]⟩ (by simpa using hnd.of_cons) ?fresh]
    · simp
    case fresh =>
      intro q hq
      have hq1 : m.containsKey q.1 = false := hfresh q (List.mem_cons_of_mem p hq)
      have hpq : p.1 ≠ q.1 := by
        intro heq
        have : q.1 ∈ ps.map Prod.fst := List.mem_map_of_mem Prod.fst hq
        rw [← heq] at this
        exact (List.nodup_cons.mp hnd).1 this
      simp only [IndexMap.containsKey, List.any_append] at hq1 ⊢
      simp [hq1, hpq]

lemma ofEntries_eq {α : Type} (l : List (String × α))
    (h : (l.map Prod.fst).Nodup) : IndexMap.ofEntries l = ⟨l⟩ := by
  unfold IndexMap.ofEntries
  rw [foldl_insert_fresh l IndexMap.empty h (fun p _ => rfl)]
  rfl

/-- Claim C8: serializing a CubeSchema to its structured representation and
deserializing the result is the identity — same cube name, description, and
the same dimension, measure and hierarchy entries in the same insertion
order.  The key-uniqueness hypotheses hold for every IndexMap the code can
build, since insertion checks contains_key first. -/
theorem cubeSchema_serde_roundtrip (s : CubeSchema)
    (h1 : s.dimensions.keys.Nodup) (h2 : s.measures.keys.Nodup)
    (h3 : s.hierarchies.keys.Nodup) :
    (CubeSchema.serialize s).deserialize = s := by
  unfold CubeSchema.serialize SerializedCubeSchema.deserialize
  rw [ofEntries_eq s.dimensions.entries h1, ofEntries_eq s.measures.entries h2,
    ofEntries_eq s.hierarchies.entries h3]

/-- Witness for C8: round-trip of a schema holding one dimension, one
measure, one hierarchy and a description. -/
theorem cubeSchema_serde_roundtrip_witness :
    (CubeSchema.serialize
        ⟨"c", ⟨[("d", ⟨"d", .utf8⟩)]⟩, ⟨[("m", ⟨"m", .float64, .sum⟩)]⟩,
         ⟨[("h", ⟨"h", ["d"]⟩)]⟩, some "sales cube"⟩).deserialize =
      ⟨"c", ⟨[("d", ⟨"d", .utf8⟩)]⟩, ⟨[("m", ⟨"m", .float64, .sum⟩)]⟩,
       ⟨[("h", ⟨"h", ["d"]⟩)]⟩, some "sales cube"⟩ :=
  cubeSchema_serde_roundtrip
    ⟨"c", ⟨[("d", ⟨"d", .utf8⟩)]⟩, ⟨[("m", ⟨"m", .float64, .sum⟩)]⟩,
     ⟨[("h", ⟨"h", ["d"]⟩)]⟩, some "sales cube"⟩
    (by decide) (by decide) (by decide)

end Elasticube
